import Mathlib

/-!
Verification of the Video_Frame_Counter repository.

The repository contains five Python scripts (make_counts.py,
optimized_make_counts.py, converter.py, h264tomp4.py, mp4toh264.py) that
discover video files in a directory, count the frames of each file with
OpenCV, optionally transcode between .h264 and .mp4, and write a sorted
(filename, framecount) manifest to counts.csv.

This file shallowly embeds the parts of those scripts that the claims are
about.  The OpenCV capture is modelled abstractly: a `Video` records
whether `cv2.VideoCapture(path)` opened successfully, the (truncated)
value of `cap.get(cv2.CAP_PROP_FRAME_COUNT)`, the outcomes of successive
`cap.read()` calls (`some frame` for a successful read, `none` for a
failed read; once the list is exhausted every further read fails, so a
list ending before any `none` also denotes end of stream), and the
width / height / frame-rate metadata.
-/

namespace FrameCounter

/-- Model of an OpenCV `cv2.VideoCapture` handle.
`opened` is the value of `cap.isOpened()` (False when the open failed;
OpenCV raises no exception on an open failure).  `meta` is the value of
`int(cap.get(cv2.CAP_PROP_FRAME_COUNT))`.  `reads` lists the outcomes of
successive `cap.read()` calls: `some f` is a successful read returning
frame `f`, `none` is a failed read (end of stream or decode error — the
return value does not distinguish them); an exhausted list reads as
failures.  `width`, `height`, `fps` model `cap.get` of
CAP_PROP_FRAME_WIDTH, CAP_PROP_FRAME_HEIGHT and CAP_PROP_FPS. -/
structure Video where
  opened : Bool
  meta : Int
  reads : List (Option Nat)
  width : Int
  height : Int
  fps : Int
deriving DecidableEq, Repr

/-- The count produced by the read loop shared by make_counts.py and
converter.py: `while cap.isOpened(): ret, _ = cap.read(); if not ret:
break; count += 1` — the number of successful reads before the first
failed read. -/
def decodeCount : List (Option Nat) → Nat
  | [] => 0
  | none :: _ => 0
  | some _ :: rs => decodeCount rs + 1

/-- The successfully decoded frames of a read sequence, in order: the
frames returned before the first failed read. -/
def decodedFrames : List (Option Nat) → List Nat
  | [] => []
  | none :: _ => []
  | some f :: rs => f :: decodedFrames rs

/-- The frame loop of h264tomp4.py / mp4toh264.py: `ret, frame =
cap.read(); if not ret: break; if new_path: out.write(frame); count += 1`.
Returns the final `count` together with the list of frames passed to
`out.write`, in order (`writerOn` is whether `new_path` was set). -/
def frameLoop (writerOn : Bool) : List (Option Nat) → Nat × List Nat
  | [] => (0, [])
  | none :: _ => (0, [])
  | some f :: rs =>
      let r := frameLoop writerOn rs
      (r.1 + 1, if writerOn then f :: r.2 else r.2)

/-- Model of Python `str.endswith`: exact, case-sensitive suffix match. -/
def pyEndsWith (suf s : String) : Bool :=
  suf.data.isSuffixOf s.data

/-- Fuel-indexed worker for `pyReplace`; the fuel is consumed one unit per
examined character, so fuel `s.length` always suffices. -/
def pyReplaceAux (pat rep : List Char) : Nat → List Char → List Char
  | _, [] => []
  | 0, s => s
  | Nat.succ n, c :: rest =>
      if pat ≠ [] ∧ pat.isPrefixOf (c :: rest) then
        rep ++ pyReplaceAux pat rep n ((c :: rest).drop pat.length)
      else
        c :: pyReplaceAux pat rep n rest

/-- Model of Python `str.replace(pat, rep)`: scans left to right and
replaces every non-overlapping occurrence of `pat` anywhere in the
string, not only a trailing suffix. -/
def pyReplace (pat rep s : List Char) : List Char :=
  pyReplaceAux pat rep s.length s

/-- `pyReplace` lifted to `String`. -/
def pyReplaceStr (pat rep s : String) : String :=
  String.mk (pyReplace pat.data rep.data s.data)

/-- Model of `os.path.join(a, b)` for a relative second component, as used
by every script: the directory, a separator, the filename. -/
def pathJoin (a b : String) : String :=
  a ++ "/" ++ b

/-- Modelled from the spec: "suffix substitution" — the source filename
with its source extension, at the end of the name, replaced by the target
extension; other occurrences of the extension text are untouched.  Used
only to compare the spec's wording with the code's `str.replace`. -/
def suffixSubstitute (srcExt tgtExt file : String) : String :=
  if pyEndsWith srcExt file then
    String.mk (file.data.take (file.data.length - srcExt.data.length) ++ tgtExt.data)
  else file

/-- Lexicographic comparison of filenames by code point, the order used by
`sorted()` and by pandas `sort_values(by="filename")` on strings. -/
def lexLe : List Char → List Char → Bool
  | [], _ => true
  | _ :: _, [] => false
  | a :: as, b :: bs => if a = b then lexLe as bs else decide (a < b)

/-- Insert one manifest row into a list sorted by filename. -/
def insertRow (r : String × Int) : List (String × Int) → List (String × Int)
  | [] => [r]
  | s :: rest => if lexLe r.1.data s.1.data then r :: s :: rest else s :: insertRow r rest

/-- Sort manifest rows ascending by filename (model of
`dataframe.sort_values(by="filename")`). -/
def sortRows (l : List (String × Int)) : List (String × Int) :=
  l.foldr insertRow []

/-- Insert one string into a lexicographically sorted list. -/
def insertStr (r : String) : List String → List String
  | [] => [r]
  | s :: rest => if lexLe r.data s.data then r :: s :: rest else s :: insertStr r rest

/-- Model of Python `sorted()` on a list of strings. -/
def sortStrings (l : List String) : List String :=
  l.foldr insertStr []

/-- Whether a line matches the unanchored extended regex `.pat` (any
single character followed by the literal `pat`) somewhere in the line, as
`grep -E` decides membership for converter.py's pattern `'.h264|.mp4'`. -/
def grepMatch (pat : List Char) : List Char → Bool
  | [] => false
  | _ :: rest => pat.isPrefixOf rest || grepMatch pat rest

/-- Whether a line matches the anchored extended regex `.pat$` (any single
character followed by the literal `pat` at the end of the line), as
`grep -E` decides membership for mp4toh264.py's pattern `'.mp4$'`. -/
def grepDotEnd (pat l : List Char) : Bool :=
  pat.isSuffixOf l && decide (pat.length < l.length)

/-- Result of one transcoding task (h264tomp4.py / mp4toh264.py), on the
normal (non-exception) path: the manifest rows it appends to the shared
list, the path and (width, height, fps) parameters of the `VideoWriter`
it opened before the loop (when the source file is of the transcoding
kind), and the frames it wrote to that writer, in order. -/
structure TaskResult where
  rows : List (String × Int)
  writerPath : Option String
  writerParams : Option (Int × Int × Int)
  written : List Nat
deriving DecidableEq, Repr

/-- Which handles a transcoding task has released on a given exit path. -/
structure ReleaseState where
  capReleased : Bool
  writerReleased : Bool
deriving DecidableEq, Repr

namespace MakeCounts

/-- File discovery of make_counts.py (line 150): `[file for file in
os.listdir(...) if file.endswith(".h264") or file.endswith(".mp4")]`. -/
def file_list (dir : List String) : List String :=
  dir.filter (fun f => pyEndsWith ".h264" f || pyEndsWith ".mp4" f)

/-- Shallow embedding of make_counts.count_frames_and_write_new_file on
its normal path: open the capture; while `cap.isOpened()` read frames,
breaking on the first failed read (when the open failed the loop body
never runs and `count` stays 0 — OpenCV raises no exception, so execution
falls through); then, under the lock, append `[file, count]` to the
shared list, and release the capture.  The row is appended whether or not
the open succeeded. -/
def count_frames_and_write_new_file (cap : Video) (file : String)
    (dataframe_list : List (String × Int)) : List (String × Int) :=
  let count : Nat := if cap.opened then decodeCount cap.reads else 0
  dataframe_list ++ [(file, (count : Int))]

/-- The single row the task appends for one file. -/
def taskRow (cap : Video) (file : String) : String × Int :=
  (file, ((if cap.opened then decodeCount cap.reads else 0 : Nat) : Int))

/-- The shared list after every submitted task has completed (the
dispatcher waits on all futures before reading it; the model uses
submission order for arrival order — the final sort makes the manifest
independent of it). -/
def runTasks (caps : String → Video) (files : List String) : List (String × Int) :=
  files.foldl (fun acc f => count_frames_and_write_new_file (caps f) f acc) []

/-- The make_counts.py run: discover files, raise (here: `none`) when no
file matches — before any task is dispatched and before any manifest is
written — otherwise run all tasks and sort the collected rows into the
counts.csv contents. -/
def main (dir : List String) (caps : String → Video) : Option (List (String × Int)) :=
  if (file_list dir).length = 0 then none
  else some (sortRows (runTasks caps (file_list dir)))

end MakeCounts

namespace Optimized

/-- File discovery of optimized_make_counts.py (same list comprehension
as make_counts.py). -/
def file_list (dir : List String) : List String :=
  dir.filter (fun f => pyEndsWith ".h264" f || pyEndsWith ".mp4" f)

/-- The loop body of optimized_make_counts.py (lines 96-102): open the
capture, take `count = int(cap.get(cv2.CAP_PROP_FRAME_COUNT))`, append
`[file, count]`, release.  No frame is decoded. -/
def recordRow (cap : Video) (file : String) : String × Int :=
  (file, cap.meta)

/-- The optimized_make_counts.py run.  `max_workers` is parsed from the
command line (lines 62-65) but never read afterwards: the files are
processed by a single sequential for loop.  Raises (here: `none`) when no
file matches, before the loop. -/
def run (max_workers : Nat) (dir : List String) (caps : String → Video) :
    Option (List (String × Int)) :=
  if (file_list dir).length = 0 then none
  else some (sortRows ((file_list dir).map (fun f => recordRow (caps f) f)))

end Optimized

namespace Converter

/-- File discovery of converter.py (lines 56-61): `ls | grep -E
'.h264|.mp4'`, ANSI-escape stripping (the identity on ordinary
filenames), then `sorted(...)`.  A name is kept when the regex matches
anywhere in it: any single character followed by the literal text `h264`
or `mp4` — not a suffix match. -/
def file_list (ls : List String) : List String :=
  sortStrings (ls.filter (fun f => grepMatch "h264".data f.data || grepMatch "mp4".data f.data))

end Converter

namespace H264ToMP4

/-- File discovery of h264tomp4.py (same list comprehension as
make_counts.py). -/
def file_list (dir : List String) : List String :=
  dir.filter (fun f => pyEndsWith ".h264" f || pyEndsWith ".mp4" f)

/-- Shallow embedding of h264tomp4.count_frames_and_write_new_file on its
normal path.  `path = os.path.join(original_path, file)`; when `path`
ends with ".h264" a `VideoWriter` is opened, before the frame loop, at
`os.path.join(output_path, file.replace(".h264", ".mp4"))` with the
source's reported width, height and fps; the loop reads frames until the
first failed read, writing each successful frame to the writer; the row
`[file.replace(".h264", ".mp4"), count]` is then appended under the lock
(the replacement is applied to every file, transcoded or not).  When the
open failed, `cap.isOpened()` is false, the loop never runs and `count`
stays 0; the row is still appended. -/
def count_frames_and_write_new_file (original_path output_path file : String)
    (cap : Video) : TaskResult :=
  let path := pathJoin original_path file
  let isH264 : Bool := pyEndsWith ".h264" path
  let newName := pyReplaceStr ".h264" ".mp4" file
  { rows := [(newName, ((if cap.opened then (frameLoop isH264 cap.reads).1 else 0 : Nat) : Int))]
    writerPath := if isH264 then some (pathJoin output_path newName) else none
    writerParams := if isH264 then some (cap.width, cap.height, cap.fps) else none
    written := if cap.opened then (frameLoop isH264 cap.reads).2 else [] }

/-- Exit-path release behaviour of h264tomp4.count_frames_and_write_new_file
(mp4toh264.py has the same try/except structure).  On the normal path the
try block ends with `cap.release()` followed, when a writer was opened
(`if new_path:`), by `out.release()`.  When an exception is raised inside
the try block, the except handler runs `cap.release()` only; no
`out.release()` appears on that path. -/
def releasesOnPath (writerOpened raised : Bool) : ReleaseState :=
  if raised then { capReleased := true, writerReleased := false }
  else { capReleased := true, writerReleased := writerOpened }

/-- The h264tomp4.py run: discover, raise (here: `none`) when no file
matches, otherwise run every task and sort the collected rows. -/
def main (original_path output_path : String) (dir : List String)
    (caps : String → Video) : Option (List (String × Int)) :=
  if (file_list dir).length = 0 then none
  else some (sortRows ((file_list dir).foldl
    (fun acc f => acc ++ (count_frames_and_write_new_file original_path output_path f (caps f)).rows) []))

end H264ToMP4

namespace MP4ToH264

/-- File discovery of mp4toh264.py (lines 79-84): `ls | grep -E '.mp4$'`,
ANSI-escape stripping, then `sorted(...)`.  A name is kept when it ends
in any single character followed by the literal text `mp4`; `.h264` files
are never listed. -/
def file_list (ls : List String) : List String :=
  sortStrings (ls.filter (fun f => grepDotEnd "mp4".data f.data))

/-- Shallow embedding of mp4toh264.count_frames_and_write_new_file on its
normal path.  As in h264tomp4.py with the extensions swapped, except the
writer path is `path.replace(".mp4", ".h264")` applied to the full joined
path, and the row filename is `file.replace(".mp4", ".h264")`. -/
def count_frames_and_write_new_file (original_path file : String)
    (cap : Video) : TaskResult :=
  let path := pathJoin original_path file
  let isMp4 : Bool := pyEndsWith ".mp4" path
  { rows := [(pyReplaceStr ".mp4" ".h264" file,
      ((if cap.opened then (frameLoop isMp4 cap.reads).1 else 0 : Nat) : Int))]
    writerPath := if isMp4 then some (pyReplaceStr ".mp4" ".h264" path) else none
    writerParams := if isMp4 then some (cap.width, cap.height, cap.fps) else none
    written := if cap.opened then (frameLoop isMp4 cap.reads).2 else [] }

/-- The mp4toh264.py run: discover via the shell pipeline and run every
task; there is no zero-files guard — with an empty file list the script
still builds, sorts and writes the (empty, header-only) counts.csv. -/
def main (original_path : String) (ls : List String)
    (caps : String → Video) : Option (List (String × Int)) :=
  some (sortRows ((file_list ls).foldl
    (fun acc f => acc ++ (count_frames_and_write_new_file original_path f (caps f)).rows) []))

end MP4ToH264

/-! ## Lock model

The shared result list is a `Manager().list()` and the lock a
`Manager().Lock()`.  A worker of make_counts.py (and of h264tomp4.py and
mp4toh264.py) executes `with lock: dataframe_list.append(...)`, i.e. the
action sequence acquire, append, release; a worker of converter.py
executes `dataframe_list.append(...)` with no lock at all.  The system of
concurrently running workers is modelled as an interleaving of these
per-worker action sequences. -/

/-- One action of a worker on the shared aggregator. -/
inductive LockAction where
  | acquire
  | append
  | release
deriving DecidableEq, Repr

/-- A configuration of the concurrent system: who holds the lock (if
anyone) and, for every worker index, the actions it has still to run. -/
structure SysConfig where
  lock : Option Nat
  prog : Nat → List LockAction

/-- One interleaving step: some worker runs its next action.  `acquire`
is enabled only when the lock is free and makes the worker the owner;
`append` is always enabled (nothing in the runtime stops a lockless
append); `release` is run by the owner and frees the lock. -/
inductive SysStep : SysConfig → Nat × LockAction → SysConfig → Prop where
  | acquireStep (p : Nat → List LockAction) (i : Nat) (rest : List LockAction)
      (h : p i = LockAction.acquire :: rest) :
      SysStep ⟨none, p⟩ (i, LockAction.acquire)
        ⟨some i, fun j => if j = i then rest else p j⟩
  | appendStep (l : Option Nat) (p : Nat → List LockAction) (i : Nat) (rest : List LockAction)
      (h : p i = LockAction.append :: rest) :
      SysStep ⟨l, p⟩ (i, LockAction.append)
        ⟨l, fun j => if j = i then rest else p j⟩
  | releaseStep (p : Nat → List LockAction) (i : Nat) (rest : List LockAction)
      (h : p i = LockAction.release :: rest) :
      SysStep ⟨some i, p⟩ (i, LockAction.release)
        ⟨none, fun j => if j = i then rest else p j⟩

/-- Reachability in the interleaving semantics. -/
def SysReachable (a b : SysConfig) : Prop :=
  Relation.ReflTransGen (fun x y => ∃ la, SysStep x la y) a b

/-- The aggregator protocol of a make_counts.py worker: `with lock:
dataframe_list.append(...)`. -/
def lockedProg : List LockAction :=
  [LockAction.acquire, LockAction.append, LockAction.release]

/-- The aggregator protocol of a converter.py worker:
`dataframe_list.append(...)`, no lock. -/
def lockfreeProg : List LockAction :=
  [LockAction.append]

/-- Initial configuration of a make_counts.py run with `n` workers: the
lock free, every worker yet to run its whole locked protocol. -/
def makeCountsInit (n : Nat) : SysConfig :=
  ⟨none, fun i => if i < n then lockedProg else []⟩

/-- Initial configuration of a converter.py run with `n` workers. -/
def converterInit (n : Nat) : SysConfig :=
  ⟨none, fun i => if i < n then lockfreeProg else []⟩

/-- A worker that has acquired but not yet released: its remaining
program is a proper tail of `lockedProg` ending in the release. -/
def InRegion (r : List LockAction) : Prop :=
  r = [LockAction.append, LockAction.release] ∨ r = [LockAction.release]

/-- Invariant of the make_counts.py system: every worker's residual
program is a suffix of the locked protocol, and any worker inside the
critical region is the lock owner. -/
def LockInv (c : SysConfig) : Prop :=
  (∀ i, c.prog i = lockedProg ∨ c.prog i = [] ∨ InRegion (c.prog i)) ∧
  (∀ i, InRegion (c.prog i) → c.lock = some i)

/-! ## Supporting lemmas -/

lemma decodeCount_map_some (fs : List Nat) (junk : List (Option Nat)) :
    decodeCount (fs.map some ++ none :: junk) = fs.length := by
  induction fs with
  | nil => rfl
  | cons a as ih => simp [decodeCount, ih]

lemma decodedFrames_map_some (fs : List Nat) (junk : List (Option Nat)) :
    decodedFrames (fs.map some ++ none :: junk) = fs := by
  induction fs with
  | nil => rfl
  | cons a as ih => simp [decodedFrames, ih]

lemma frameLoop_snd (l : List (Option Nat)) :
    (frameLoop true l).2 = decodedFrames l := by
  induction l with
  | nil => rfl
  | cons o rest ih => cases o <;> simp [frameLoop, decodedFrames, ih]

lemma frameLoop_fst (writerOn : Bool) (l : List (Option Nat)) :
    (frameLoop writerOn l).1 = (decodedFrames l).length := by
  induction l with
  | nil => rfl
  | cons o rest ih => cases o <;> simp [frameLoop, decodedFrames, ih]

lemma runTasks_eq_map (caps : String → Video) (files : List String) :
    MakeCounts.runTasks caps files
      = files.map (fun g => MakeCounts.taskRow (caps g) g) := by
  have key : ∀ (fs : List String) (acc : List (String × Int)),
      fs.foldl (fun a f => MakeCounts.count_frames_and_write_new_file (caps f) f a) acc
        = acc ++ fs.map (fun g => MakeCounts.taskRow (caps g) g) := by
    intro fs
    induction fs with
    | nil => intro acc; simp
    | cons g gs ih =>
        intro acc
        rw [List.foldl_cons,
          show MakeCounts.count_frames_and_write_new_file (caps g) g acc
              = acc ++ [MakeCounts.taskRow (caps g) g] from rfl,
          ih, List.append_assoc]
        rfl
  simpa [MakeCounts.runTasks] using key files []

lemma pyReplaceAux_nil (pat rep : List Char) (fuel : Nat) :
    pyReplaceAux pat rep fuel [] = [] := by
  cases fuel <;> rfl

lemma pyReplaceAux_unique (pat rep : List Char) (hpat : pat ≠ []) :
    ∀ (stem : List Char) (fuel : Nat), stem.length + 1 ≤ fuel →
      (∀ i, i < stem.length → ¬ pat.isPrefixOf ((stem ++ pat).drop i) = true) →
      pyReplaceAux pat rep fuel (stem ++ pat) = stem ++ rep := by
  intro stem
  induction stem with
  | nil =>
      intro fuel hf _
      obtain ⟨c, rest, hc⟩ : ∃ c rest, pat = c :: rest := by
        cases pat with
        | nil => exact absurd rfl hpat
        | cons c rest => exact ⟨c, rest, rfl⟩
      obtain ⟨m, rfl⟩ : ∃ m, fuel = m + 1 := ⟨fuel - 1, by omega⟩
      subst hc
      simp only [List.nil_append, pyReplaceAux]
      rw [if_pos]
      · rw [List.drop_length, pyReplaceAux_nil, List.append_nil]
      · exact ⟨hpat, by simp⟩
  | cons c st ih =>
      intro fuel hf huniq
      obtain ⟨m, rfl⟩ : ∃ m, fuel = m + 1 := ⟨fuel - 1, by omega⟩
      have hm : st.length + 1 ≤ m := by
        simp only [List.length_cons] at hf
        omega
      have h0 : ¬ pat.isPrefixOf (c :: (st ++ pat)) = true := by
        have := huniq 0 (by simp)
        simpa using this
      have harg : ∀ i, i < st.length → ¬ pat.isPrefixOf ((st ++ pat).drop i) = true := by
        intro i hi
        have := huniq (i + 1) (by simp only [List.length_cons]; omega)
        simpa [List.drop_succ_cons] using this
      simp only [List.cons_append, pyReplaceAux]
      rw [if_neg (fun hcontra => h0 hcontra.2)]
      simp only [List.append_eq]
      rw [ih m hm harg]

lemma pyReplace_unique (pat rep stem : List Char) (hpat : pat ≠ [])
    (huniq : ∀ i, i < stem.length → ¬ pat.isPrefixOf ((stem ++ pat).drop i) = true) :
    pyReplace pat rep (stem ++ pat) = stem ++ rep := by
  have hlen : stem.length + 1 ≤ (stem ++ pat).length := by
    have : 0 < pat.length := List.length_pos.mpr hpat
    simp only [List.length_append]
    omega
  exact pyReplaceAux_unique pat rep hpat stem _ hlen huniq

lemma isSuffixOf_append (pat xs : List Char) :
    pat.isSuffixOf (xs ++ pat) = true := by
  simp [List.isSuffixOf_iff_suffix]

lemma lockInv_init (n : Nat) : LockInv (makeCountsInit n) := by
  constructor
  · intro i
    by_cases h : i < n <;> simp [makeCountsInit, h]
  · intro i hreg
    by_cases h : i < n
    · simp only [makeCountsInit, h, if_pos] at hreg
      rcases hreg with hh | hh <;> simp [lockedProg] at hh
    · simp only [makeCountsInit, h, if_neg, not_false_iff] at hreg
      rcases hreg with hh | hh <;> simp at hh

lemma lockInv_step {c c' : SysConfig} {la : Nat × LockAction}
    (hin : LockInv c) (hs : SysStep c la c') : LockInv c' := by
  obtain ⟨hshape, howner⟩ := hin
  cases hs with
  | acquireStep p i rest h =>
      dsimp only at hshape howner
      have hrest : rest = [LockAction.append, LockAction.release] := by
        rcases hshape i with hh | hh | hh
        · rw [h] at hh; simpa [lockedProg] using hh
        · rw [h] at hh; simp at hh
        · rw [h] at hh; simp [InRegion] at hh
      constructor
      · intro j
        dsimp only
        by_cases hj : j = i
        · subst hj
          rw [if_pos rfl]
          exact Or.inr (Or.inr (Or.inl hrest))
        · rw [if_neg hj]
          exact hshape j
      · intro j hreg
        dsimp only at hreg ⊢
        by_cases hj : j = i
        · subst hj; rfl
        · rw [if_neg hj] at hreg
          have := howner j hreg
          simp at this
  | appendStep l p i rest h =>
      dsimp only at hshape howner
      have hregion : InRegion (p i) := by
        rcases hshape i with hh | hh | hh
        · rw [h] at hh; simp [lockedProg] at hh
        · rw [h] at hh; simp at hh
        · exact hh
      have hlock : l = some i := howner i hregion
      have hrest : rest = [LockAction.release] := by
        rcases hregion with hh | hh
        · rw [h] at hh; simp at hh; exact hh
        · rw [h] at hh; simp at hh
      constructor
      · intro j
        dsimp only
        by_cases hj : j = i
        · subst hj
          rw [if_pos rfl]
          exact Or.inr (Or.inr (Or.inr hrest))
        · rw [if_neg hj]
          exact hshape j
      · intro j hreg
        dsimp only at hreg ⊢
        by_cases hj : j = i
        · subst hj; exact hlock
        · rw [if_neg hj] at hreg
          exact howner j hreg
  | releaseStep p i rest h =>
      dsimp only at hshape howner
      have hrest : rest = [] := by
        rcases hshape i with hh | hh | hh
        · rw [h] at hh; simp [lockedProg] at hh
        · rw [h] at hh; simp at hh
        · rw [h] at hh; simpa [InRegion] using hh
      constructor
      · intro j
        dsimp only
        by_cases hj : j = i
        · subst hj
          rw [if_pos rfl]
          exact Or.inr (Or.inl hrest)
        · rw [if_neg hj]
          exact hshape j
      · intro j hreg
        dsimp only at hreg ⊢
        by_cases hj : j = i
        · subst hj
          rw [if_pos rfl, hrest] at hreg
          rcases hreg with hh | hh <;> simp at hh
        · rw [if_neg hj] at hreg
          have := howner j hreg
          have hij : i = j := by simpa using this
          exact absurd hij.symm hj

lemma lockInv_reachable {c : SysConfig} (n : Nat)
    (h : SysReachable (makeCountsInit n) c) : LockInv c := by
  induction h with
  | refl => exact lockInv_init n
  | tail _ hbc ih =>
      obtain ⟨la, hs⟩ := hbc
      exact lockInv_step ih hs

/-! ## Claims -/

/-- Claim C1: the Decode-Count strategy records exactly the number of
successful frame reads before the first failed read.  For a capture that
opened and delivers the frames `fs` before a failed read, the task appends
the single row `(file, fs.length)` (so an `fs = []` zero-frame file is
recorded with count 0), and a mid-stream decode failure (a failed read
with `junk` behind it) is recorded identically to a normal end of stream:
the partial count, with no distinct error surfaced. -/
theorem C1_decode_count_exact (file : String) (m wd ht fr : Int)
    (fs : List Nat) (junk : List (Option Nat)) (acc : List (String × Int)) :
    MakeCounts.count_frames_and_write_new_file
        ⟨true, m, fs.map some ++ [none], wd, ht, fr⟩ file acc
      = acc ++ [(file, (fs.length : Int))] ∧
    MakeCounts.count_frames_and_write_new_file
        ⟨true, m, fs.map some ++ none :: junk, wd, ht, fr⟩ file acc
      = MakeCounts.count_frames_and_write_new_file
          ⟨true, m, fs.map some ++ [none], wd, ht, fr⟩ file acc := by
  have h1 := decodeCount_map_some fs []
  have h2 := decodeCount_map_some fs junk
  constructor <;>
    simp [MakeCounts.count_frames_and_write_new_file, h1, h2]

/-- Claim C2: on a file that opens successfully, whose reads are the
well-formed stream `fs` followed by end of stream, and whose container
metadata frame count equals the true frame count `fs.length`, the
Metadata-Count pipeline (optimized_make_counts.py) and the Decode-Count
pipeline (make_counts.py) record the same (filename, framecount) manifest
row. -/
theorem C2_strategies_agree (v : Video) (file : String) (fs : List Nat)
    (hopen : v.opened = true)
    (hreads : v.reads = fs.map some ++ [none])
    (hmeta : v.meta = (fs.length : Int)) :
    MakeCounts.count_frames_and_write_new_file v file []
      = [Optimized.recordRow v file] := by
  have h1 := decodeCount_map_some fs []
  simp [MakeCounts.count_frames_and_write_new_file, Optimized.recordRow,
    hopen, hreads, hmeta, h1]

/-- Witness for C2 at a concrete two-frame file. -/
theorem C2_strategies_agree_witness :
    (⟨true, 2, [some 1, some 2, none], 0, 0, 0⟩ : Video).opened = true ∧
    MakeCounts.count_frames_and_write_new_file
        ⟨true, 2, [some 1, some 2, none], 0, 0, 0⟩ "a.mp4" []
      = [Optimized.recordRow ⟨true, 2, [some 1, some 2, none], 0, 0, 0⟩ "a.mp4"] :=
  ⟨rfl, C2_strategies_agree ⟨true, 2, [some 1, some 2, none], 0, 0, 0⟩ "a.mp4"
    [1, 2] rfl rfl rfl⟩

/-- Counterexample to claim C3 as stated: `cv2.VideoCapture` raises no
exception on an open failure, it only answers `isOpened() = false`; the
task of make_counts.py then skips the read loop, leaves `count = 0` and
still appends the row `(file, 0)` — the file is not absent from the
manifest. -/
theorem C3_counterexample :
    MakeCounts.count_frames_and_write_new_file
        ⟨false, 0, [], 0, 0, 0⟩ "broken.mp4" [] = [("broken.mp4", 0)] ∧
    MakeCounts.count_frames_and_write_new_file
        ⟨false, 0, [], 0, 0, 0⟩ "broken.mp4" [] ≠ [] := by
  constructor
  · decide
  · decide

/-- Claim C3 (amended): a file whose codec open fails is recorded with
the placeholder row `(file, 0)`, indistinguishable from a zero-frame
file, and the run continues: every discovered file, this one included,
contributes exactly its own row to the aggregator. -/
theorem C3_open_failure_records_zero (caps : String → Video)
    (files : List String) (f : String)
    (hf : f ∈ files) (hopen : (caps f).opened = false) :
    (f, (0 : Int)) ∈ MakeCounts.runTasks caps files ∧
    MakeCounts.runTasks caps files
      = files.map (fun g => MakeCounts.taskRow (caps g) g) := by
  refine ⟨?_, runTasks_eq_map caps files⟩
  rw [runTasks_eq_map caps files]
  refine List.mem_map.mpr ⟨f, hf, ?_⟩
  simp [MakeCounts.taskRow, hopen]

/-- Witness for the amended C3 at a one-file run whose open fails. -/
theorem C3_open_failure_records_zero_witness :
    ("x.mp4" ∈ (["x.mp4"] : List String)) ∧
    ((⟨false, 0, [], 0, 0, 0⟩ : Video).opened = false) ∧
    (("x.mp4", (0 : Int)) ∈
        MakeCounts.runTasks (fun _ => ⟨false, 0, [], 0, 0, 0⟩) ["x.mp4"] ∧
      MakeCounts.runTasks (fun _ => ⟨false, 0, [], 0, 0, 0⟩) ["x.mp4"]
        = (["x.mp4"] : List String).map
            (fun g => MakeCounts.taskRow ⟨false, 0, [], 0, 0, 0⟩ g)) :=
  ⟨by decide, rfl,
    C3_open_failure_records_zero (fun _ => ⟨false, 0, [], 0, 0, 0⟩)
      ["x.mp4"] "x.mp4" (by decide) rfl⟩

/-- Counterexample to claim C4 as stated: converter.py's discovery is
`ls | grep -E '.h264|.mp4'`, a regex match anywhere in the name in which
the dot matches any character; the name `ah264` is returned although it
ends in neither `.h264` nor `.mp4`. -/
theorem C4_counterexample :
    "ah264" ∈ Converter.file_list ["ah264"] ∧
    ".h264".data.isSuffixOf "ah264".data = false ∧
    ".mp4".data.isSuffixOf "ah264".data = false := by
  refine ⟨by decide, by decide, by decide⟩

/-- Claim C4 (amended): the `os.listdir`-based discovery of
make_counts.py, optimized_make_counts.py and h264tomp4.py returns exactly
the names with the case-sensitive suffix `.h264` or `.mp4`; the
shell-pipeline discoveries of converter.py and mp4toh264.py use regex
matching instead and do not satisfy this characterization. -/
theorem C4_listdir_discovery_exact (dir : List String) (f : String) :
    (f ∈ MakeCounts.file_list dir ↔
      f ∈ dir ∧ (".h264".data.isSuffixOf f.data = true ∨ ".mp4".data.isSuffixOf f.data = true)) ∧
    (f ∈ Optimized.file_list dir ↔
      f ∈ dir ∧ (".h264".data.isSuffixOf f.data = true ∨ ".mp4".data.isSuffixOf f.data = true)) ∧
    (f ∈ H264ToMP4.file_list dir ↔
      f ∈ dir ∧ (".h264".data.isSuffixOf f.data = true ∨ ".mp4".data.isSuffixOf f.data = true)) := by
  refine ⟨?_, ?_, ?_⟩ <;>
    simp [MakeCounts.file_list, Optimized.file_list, H264ToMP4.file_list,
      pyEndsWith, List.mem_filter]

/-- Counterexample to claim C5 as stated: mp4toh264.py has no zero-files
guard; on a directory with no matching file it still builds, sorts and
writes counts.csv — an (empty, header-only) manifest is produced instead
of the run aborting. -/
theorem C5_counterexample :
    MP4ToH264.file_list ["notes.txt"] = [] ∧
    MP4ToH264.main "vids" ["notes.txt"] (fun _ => ⟨true, 0, [], 0, 0, 0⟩)
      = some [] := by
  constructor
  · decide
  · decide

/-- Claim C5 (amended): in make_counts.py, optimized_make_counts.py and
h264tomp4.py, a directory in which zero filenames match raises before any
task is dispatched and before any manifest is produced (result `none`);
converter.py and mp4toh264.py have no such guard. -/
theorem C5_empty_discovery_aborts (dir : List String) (caps : String → Video)
    (w : Nat) (orig outp : String)
    (hempty : MakeCounts.file_list dir = []) :
    MakeCounts.main dir caps = none ∧
    Optimized.run w dir caps = none ∧
    H264ToMP4.main orig outp dir caps = none := by
  have h2 : Optimized.file_list dir = [] := hempty
  have h3 : H264ToMP4.file_list dir = [] := hempty
  refine ⟨?_, ?_, ?_⟩ <;>
    simp [MakeCounts.main, Optimized.run, H264ToMP4.main, hempty, h2, h3]

/-- Witness for the amended C5 on a directory with one non-video file. -/
theorem C5_empty_discovery_aborts_witness :
    MakeCounts.file_list ["notes.txt"] = [] ∧
    (MakeCounts.main ["notes.txt"] (fun _ => ⟨true, 0, [], 0, 0, 0⟩) = none ∧
     Optimized.run 20 ["notes.txt"] (fun _ => ⟨true, 0, [], 0, 0, 0⟩) = none ∧
     H264ToMP4.main "v" "o" ["notes.txt"] (fun _ => ⟨true, 0, [], 0, 0, 0⟩) = none) :=
  ⟨by decide,
    C5_empty_discovery_aborts ["notes.txt"] (fun _ => ⟨true, 0, [], 0, 0, 0⟩)
      20 "v" "o" (by decide)⟩

/-- Counterexample to claim C6 as stated: the output name is computed by
Python `str.replace`, which substitutes every occurrence of the source
extension, not only the trailing suffix.  For the `.h264`-kind input
`v.h264.h264` the recorded filename is `v.mp4.mp4`, while suffix
substitution would give `v.h264.mp4`. -/
theorem C6_counterexample :
    (H264ToMP4.count_frames_and_write_new_file "vids" "outs" "v.h264.h264"
        ⟨true, 0, [], 0, 0, 0⟩).rows.map Prod.fst = ["v.mp4.mp4"] ∧
    suffixSubstitute ".h264" ".mp4" "v.h264.h264" = "v.h264.mp4" ∧
    ("v.mp4.mp4" : String) ≠ "v.h264.mp4" := by
  refine ⟨by decide, by decide, by decide⟩

/-- Claim C6 (amended): the transcoded output filename — also the
filename recorded in the manifest row — is `file.replace(src, tgt)`, a
global substring replacement; when the source extension occurs in the
filename only as its trailing suffix this coincides with suffix
substitution, and the same replaced name is used for the writer's output
path and for the manifest row. -/
theorem C6_suffix_substitution (orig outp : String) (cap : Video)
    (stem : List Char)
    (huniq : ∀ i, i < stem.length →
      ¬ ".h264".data.isPrefixOf ((stem ++ ".h264".data).drop i) = true) :
    (H264ToMP4.count_frames_and_write_new_file orig outp
        (String.mk (stem ++ ".h264".data)) cap).rows.map Prod.fst
      = [suffixSubstitute ".h264" ".mp4" (String.mk (stem ++ ".h264".data))] ∧
    (H264ToMP4.count_frames_and_write_new_file orig outp
        (String.mk (stem ++ ".h264".data)) cap).writerPath
      = some (pathJoin outp
          (suffixSubstitute ".h264" ".mp4" (String.mk (stem ++ ".h264".data)))) := by
  have hpat : (".h264".data : List Char) ≠ [] := by decide
  have hrep : pyReplaceStr ".h264" ".mp4" (String.mk (stem ++ ".h264".data))
      = String.mk (stem ++ ".mp4".data) := by
    show String.mk (pyReplace ".h264".data ".mp4".data (stem ++ ".h264".data))
        = String.mk (stem ++ ".mp4".data)
    rw [pyReplace_unique _ _ _ hpat huniq]
  have hcond : pyEndsWith ".h264" (String.mk (stem ++ ".h264".data)) = true := by
    show ".h264".data.isSuffixOf (stem ++ ".h264".data) = true
    exact isSuffixOf_append _ _
  have hsuffix : suffixSubstitute ".h264" ".mp4" (String.mk (stem ++ ".h264".data))
      = String.mk (stem ++ ".mp4".data) := by
    rw [suffixSubstitute, if_pos hcond]
    congr 1
    show (stem ++ ".h264".data).take ((stem ++ ".h264".data).length - ".h264".data.length)
        ++ ".mp4".data = stem ++ ".mp4".data
    congr 1
    rw [List.length_append, Nat.add_sub_cancel]
    exact List.take_left stem _
  have hpath : pyEndsWith ".h264"
      (pathJoin orig (String.mk (stem ++ ".h264".data))) = true := by
    show ".h264".data.isSuffixOf
      (pathJoin orig (String.mk (stem ++ ".h264".data))).data = true
    have hdata : (pathJoin orig (String.mk (stem ++ ".h264".data))).data
        = ((orig ++ "/").data ++ stem) ++ ".h264".data := by
      show (orig ++ "/" ++ String.mk (stem ++ ".h264".data)).data = _
      rw [String.data_append]
      simp [List.append_assoc]
    rw [hdata]
    exact isSuffixOf_append _ _
  refine ⟨?_, ?_⟩
  · simp [H264ToMP4.count_frames_and_write_new_file, hrep, hsuffix]
  · simp [H264ToMP4.count_frames_and_write_new_file, hpath, hrep, hsuffix]

/-- Witness for the amended C6 at the ordinary filename `v.h264`. -/
theorem C6_suffix_substitution_witness :
    (∀ i, i < (['v'] : List Char).length →
      ¬ ".h264".data.isPrefixOf (((['v'] : List Char) ++ ".h264".data).drop i) = true) ∧
    ((H264ToMP4.count_frames_and_write_new_file "v" "o"
        (String.mk ((['v'] : List Char) ++ ".h264".data)) ⟨true, 0, [], 0, 0, 0⟩).rows.map Prod.fst
      = [suffixSubstitute ".h264" ".mp4" (String.mk ((['v'] : List Char) ++ ".h264".data))] ∧
     (H264ToMP4.count_frames_and_write_new_file "v" "o"
        (String.mk ((['v'] : List Char) ++ ".h264".data)) ⟨true, 0, [], 0, 0, 0⟩).writerPath
      = some (pathJoin "o"
          (suffixSubstitute ".h264" ".mp4" (String.mk ((['v'] : List Char) ++ ".h264".data))))) :=
  ⟨by decide,
    C6_suffix_substitution "v" "o" ⟨true, 0, [], 0, 0, 0⟩ ['v'] (by decide)⟩

/-- Claim C7: for a source-kind (`.h264`) file that opens, the transcoding
task of h264tomp4.py opens the writer before the loop with the source's
reported width, height and frame rate, writes each successfully decoded
frame exactly once (the written list is exactly the decoded-frame list,
in order), and the frame count recorded in the manifest row equals the
number of frames written. -/
theorem C7_transcode_writes_each_frame_once (orig outp file : String)
    (cap : Video)
    (hkind : pyEndsWith ".h264" (pathJoin orig file) = true)
    (hopen : cap.opened = true) :
    (H264ToMP4.count_frames_and_write_new_file orig outp file cap).written
      = decodedFrames cap.reads ∧
    (H264ToMP4.count_frames_and_write_new_file orig outp file cap).writerParams
      = some (cap.width, cap.height, cap.fps) ∧
    (H264ToMP4.count_frames_and_write_new_file orig outp file cap).rows
      = [(pyReplaceStr ".h264" ".mp4" file,
          ((decodedFrames cap.reads).length : Int))] := by
  refine ⟨?_, ?_, ?_⟩ <;>
    simp [H264ToMP4.count_frames_and_write_new_file, hkind, hopen,
      frameLoop_snd, frameLoop_fst]

/-- Witness for C7 at a two-frame `.h264` file. -/
theorem C7_transcode_writes_each_frame_once_witness :
    pyEndsWith ".h264" (pathJoin "v" "a.h264") = true ∧
    ((H264ToMP4.count_frames_and_write_new_file "v" "o" "a.h264"
        ⟨true, 2, [some 5, some 6, none], 640, 480, 30⟩).written
      = decodedFrames [some 5, some 6, none] ∧
     (H264ToMP4.count_frames_and_write_new_file "v" "o" "a.h264"
        ⟨true, 2, [some 5, some 6, none], 640, 480, 30⟩).writerParams
      = some (640, 480, 30) ∧
     (H264ToMP4.count_frames_and_write_new_file "v" "o" "a.h264"
        ⟨true, 2, [some 5, some 6, none], 640, 480, 30⟩).rows
      = [(pyReplaceStr ".h264" ".mp4" "a.h264",
          ((decodedFrames [some 5, some 6, none]).length : Int))]) :=
  ⟨by decide,
    C7_transcode_writes_each_frame_once "v" "o" "a.h264"
      ⟨true, 2, [some 5, some 6, none], 640, 480, 30⟩ (by decide) rfl⟩

/-- Claim C8 (code bug in the source): evaluating the release behaviour
of the transcoding task at the failing input — a task with the writer
opened whose try block raises — shows the capture handle released but
the writer handle never released (the except handler runs only
`cap.release()`), while on the normal path both are released.  The
claim's property, release of both handles on every exit path, is what
the code intends but fails to do on the exception path. -/
theorem C8_exception_path_leaks_writer :
    (H264ToMP4.releasesOnPath true true).capReleased = true ∧
    (H264ToMP4.releasesOnPath true true).writerReleased = false ∧
    H264ToMP4.releasesOnPath true false
      = { capReleased := true, writerReleased := true } :=
  ⟨rfl, rfl, rfl⟩

/-- Claim C9 (amended): in the make_counts.py system (every worker runs
acquire, append, release), in every reachable configuration an append
step can only be taken by the worker currently holding the lock — no
append ever executes without exclusive access.  (converter.py workers
append with no lock at all; see the counterexample.) -/
theorem C9_append_only_with_lock (n : Nat) (c c' : SysConfig) (i : Nat)
    (hreach : SysReachable (makeCountsInit n) c)
    (hstep : SysStep c (i, LockAction.append) c') :
    c.lock = some i := by
  obtain ⟨hshape, howner⟩ := lockInv_reachable n hreach
  cases hstep with
  | appendStep l p i rest h =>
      dsimp only at hshape howner ⊢
      apply howner
      rcases hshape i with hh | hh | hh
      · rw [h] at hh; simp [lockedProg] at hh
      · rw [h] at hh; simp at hh
      · exact hh

/-- Witness for the amended C9: the one-worker make_counts.py system,
after the worker has acquired, is about to append and indeed holds the
lock. -/
theorem C9_append_only_with_lock_witness :
    (⟨some 0, fun j => if j = 0 then [LockAction.append, LockAction.release]
        else (makeCountsInit 1).prog j⟩ : SysConfig).lock = some 0 :=
  C9_append_only_with_lock 1 _ _ 0
    (Relation.ReflTransGen.single
      ⟨(0, LockAction.acquire), SysStep.acquireStep _ 0 _ rfl⟩)
    (SysStep.appendStep _ _ 0 [LockAction.release] rfl)

/-- Counterexample to claim C9 as stated: a converter.py worker
(protocol: a bare append, no lock) can take an append step from the
reachable initial configuration while nobody holds the lock. -/
theorem C9_counterexample :
    SysReachable (converterInit 1) (converterInit 1) ∧
    (∃ c', SysStep (converterInit 1) (0, LockAction.append) c') ∧
    (converterInit 1).lock ≠ some 0 :=
  ⟨Relation.ReflTransGen.refl,
   ⟨⟨none, fun j => if j = 0 then [] else (converterInit 1).prog j⟩,
     SysStep.appendStep none _ 0 [] rfl⟩,
   by simp [converterInit]⟩

/-- Claim C10: optimized_make_counts.py parses `--max-workers` but never
uses it — the files are processed by one sequential loop — so any two
values of the flag produce identical counts.csv contents on the same
directory and captures. -/
theorem C10_max_workers_no_effect (w1 w2 : Nat) (dir : List String)
    (caps : String → Video) :
    Optimized.run w1 dir caps = Optimized.run w2 dir caps := rfl

end FrameCounter
